import Mathlib

/-!
Verification of the Changes transaction model of the google-cloud-dns client
library, together with the quota-fetching operation of its top-level client.

The repository ships two source files: `google/cloud/dns/client.py` (the
top-level client, including `Client.quotas`) and the unit-test file
`tests/unit/test_changes.py` for the `Changes` entity.  The module
`google/cloud/dns/changes.py` itself is not part of the source tree, so the
`Changes` data model and its operations are modelled here from the
specification, with the repository's own unit tests taken as the authority
wherever their assertions pin concrete behavior.

Modelling conventions:
  - Python dicts (parsed JSON mappings) become structures with `Option`
    fields for optional keys, or association lists for open-shaped objects.
  - Python exceptions become explicit error values (`DnsError`).
  - Network operations take the would-be server response as an explicit
    oracle argument and return, besides the result, the post-state and the
    list of issued requests tagged with the identifier of the client that
    received them; "exactly one request" is then a statement about that
    trace.
-/

/-- A parsed JSON value, as returned by the client's api_request primitive.
Objects are association lists of key/value pairs (Python dicts with unique
keys). -/
inductive Json where
  | null : Json
  | bool : Bool → Json
  | num : Int → Json
  | str : String → Json
  | arr : List Json → Json
  | obj : List (String × Json) → Json
deriving Repr

/-- Modelled from the spec: the client capability supplies a project name and
the ability to issue requests.  Since each operation takes its response as an
explicit oracle argument, the client is plain data; `cid` is an identity tag
used to tell distinct client objects apart in request traces. -/
structure Client where
  cid : Nat
  project : String
deriving Repr, DecidableEq

/-- Modelled from the spec: the zone capability supplies a project, a zone
name and the bound default client. -/
structure Zone where
  project : String
  name : String
  client : Client
deriving Repr, DecidableEq

/-- Modelled from the spec: an external timestamp value produced by the
RFC 3339 parsing helper of the collaborator layer.  The parser itself is
outside this repository; it is modelled as an abstract constructor keeping
the source text. -/
structure DateTimeUTC where
  rfc3339 : String
deriving Repr, DecidableEq

/-- Modelled from the spec: the external helper parsing an RFC 3339
timestamp string into a timezone-aware instant. -/
def rfc3339_to_datetime (s : String) : DateTimeUTC := ⟨s⟩

/-- Accumulate a decimal digit sequence into a number, failing on any
non-digit character. -/
def digitsToNat (acc : Nat) : List Char → Option Nat
  | [] => some acc
  | ch :: cs =>
    if ch.isDigit then digitsToNat (acc * 10 + (ch.toNat - 48)) cs else none

/-- Modelled from the spec: Python int() applied to the wire format's
string-encoded ttl — an optional minus sign followed by decimal digits
(the wire format carries canonical decimal strings, so int()'s tolerance
for surrounding whitespace is irrelevant here); any other text raises,
modelled as none. -/
def py_int (s : String) : Option Int :=
  match s.data with
  | [] => none
  | List.cons c cs =>
    if c = '-' then
      if cs = [] then none else (digitsToNat 0 cs).map (fun n => -(n : Int))
    else (digitsToNat 0 (List.cons c cs)).map (fun n => (n : Int))

/-- A raw record-set mapping in wire shape: name, type, string-encoded ttl,
and the optional rrdatas / routingPolicy keys.  An `Option` field of `none`
models the key being absent from the dict. -/
structure RawRecordSet where
  name : String
  type : String
  ttl : String
  rrdatas : Option (List String)
  routingPolicy : Option (List (String × Json))
deriving Repr

/-- Modelled from the spec: the ResourceRecordSet value type (name, record
type, integer ttl, rrdatas, routing policy, owning zone back-reference). -/
structure ResourceRecordSet where
  name : String
  record_type : String
  ttl : Int
  rrdatas : List String
  routing_policy : List (String × Json)
  zone : Zone
deriving Repr

/-- Modelled from the spec: the Changes entity (owning zone back-reference,
optional server-assigned name, optional status, optional start timestamp,
and the ordered addition / deletion record-set lists). -/
structure Changes where
  zone : Zone
  name : Option String
  status : Option String
  started : Option DateTimeUTC
  additions : List ResourceRecordSet
  deletions : List ResourceRecordSet
deriving Repr

/-- Modelled from the spec: the Changes constructor, producing a client-side
draft bound to a zone with all server fields unset and empty lists. -/
def Changes.empty (zone : Zone) : Changes :=
  { zone := zone, name := none, status := none, started := none,
    additions := [], deletions := [] }

/-- Modelled from the spec: Changes._routing_policy_cleaner of the absent
module google/cloud/dns/changes.py.  The spec's prose describes an
exactly-one-of cleanup, but the repository's unit tests
(test__routing_policy_cleaner_falsy and test__routing_policy_cleaner_truthy)
pin a different behavior, which takes precedence: each of the keys rrdatas
and routingPolicy is popped from the mapping exactly when its value is falsy
(absent or empty), independently of the other key. -/
def Changes.routing_policy_cleaner (r : RawRecordSet) : RawRecordSet :=
  let r1 := if (r.rrdatas.getD []).isEmpty then { r with rrdatas := none } else r
  if (r1.routingPolicy.getD []).isEmpty then { r1 with routingPolicy := none } else r1

/-- Modelled from the spec: the errors of the error-handling taxonomy.
`valueError` is the locally raised InvalidArgument-kind usage error
(Python ValueError); `notFound` is the NotFound condition signaled by the
client capability on HTTP 404; `other` is any other transport or API
error, carried verbatim. -/
inductive DnsError where
  | valueError : DnsError
  | notFound : DnsError
  | other : String → DnsError
deriving Repr, DecidableEq

/-- The request body of a Changes create call: serialized additions and
deletions. -/
structure ChangesBody where
  additions : List RawRecordSet
  deletions : List RawRecordSet
deriving Repr

/-- One request issued through a client capability: HTTP method, path,
optional query parameters, optional JSON body (only create sends one). -/
structure Request where
  method : String
  path : String
  query_params : Option (List (String × String))
  data : Option ChangesBody
deriving Repr

/-- A server-shaped Changes resource mapping (the wire shape of requests
and responses): required id, startTime and status keys, optional additions
and deletions keys. The kind key is ignored on decode and omitted here. -/
structure ChangesResource where
  id : String
  startTime : String
  status : String
  additions : Option (List RawRecordSet)
  deletions : Option (List RawRecordSet)
deriving Repr

/-- The outcome of a server round-trip, supplied to each network operation
as an oracle: a parsed resource on success, a NotFound signal, or another
API error. -/
inductive ApiResult where
  | ok : ChangesResource → ApiResult
  | notFound : ApiResult
  | apiError : String → ApiResult
deriving Repr

/-- The observable outcome of one Changes operation: the post-state (equal
to the input state when nothing was overwritten), the trace of issued
requests tagged by the receiving client's identity, and the result or
error. -/
structure OpOutcome (α : Type) where
  state : Changes
  trace : List (Nat × Request)
  result : Except DnsError α
deriving Repr

/-- Modelled from the spec: a Python value passed to a duck-typed boundary
check — a string, an int, a ResourceRecordSet, or some other object. -/
inductive PyObject where
  | str : String → PyObject
  | int : Int → PyObject
  | rrset : ResourceRecordSet → PyObject
  | otherObject : Nat → PyObject
deriving Repr

/-- Modelled from the spec: the name setter of Changes. Setting a
non-string value raises the InvalidArgument-kind ValueError and leaves the
entity unchanged; setting a string stores it. -/
def Changes.set_name (c : Changes) (v : PyObject) : Changes × Option DnsError :=
  match v with
  | .str s => ({ c with name := some s }, none)
  | _ => (c, some .valueError)

/-- Modelled from the spec: add_record_set appends a ResourceRecordSet to
the additions list and raises the InvalidArgument-kind ValueError on any
other value, leaving the entity unchanged. -/
def Changes.add_record_set (c : Changes) (v : PyObject) : Changes × Option DnsError :=
  match v with
  | .rrset rs => ({ c with additions := c.additions ++ [rs] }, none)
  | _ => (c, some .valueError)

/-- Modelled from the spec: delete_record_set appends a ResourceRecordSet
to the deletions list, with the same type check as add_record_set. -/
def Changes.delete_record_set (c : Changes) (v : PyObject) : Changes × Option DnsError :=
  match v with
  | .rrset rs => ({ c with deletions := c.deletions ++ [rs] }, none)
  | _ => (c, some .valueError)

/-- Modelled from the spec: the wire-format serialization of one record
set — name, type, the ttl encoded as its decimal string representation,
the rrdatas list, and a routingPolicy key exactly when the routing policy
is non-empty. -/
def ResourceRecordSet.to_wire (rs : ResourceRecordSet) : RawRecordSet :=
  { name := rs.name, type := rs.record_type, ttl := toString rs.ttl,
    rrdatas := some rs.rrdatas,
    routingPolicy :=
      if rs.routing_policy.isEmpty then none else some rs.routing_policy }

/-- Modelled from the spec: decoding one raw record-set mapping — apply the
cleaning rule, parse the string ttl with Python int (modelled by
py_int, failing on a non-numeric ttl), and construct a
ResourceRecordSet with absent rrdatas or routingPolicy defaulting to
empty. -/
def ResourceRecordSet.from_api_repr (w : RawRecordSet) (zone : Zone) :
    Option ResourceRecordSet :=
  let w := Changes.routing_policy_cleaner w
  match py_int w.ttl with
  | some t =>
      some { name := w.name, record_type := w.type, ttl := t,
             rrdatas := w.rrdatas.getD [], routing_policy := w.routingPolicy.getD [],
             zone := zone }
  | none => none

/-- Decode a list of raw record-set mappings in order, failing as soon as
one entry fails to decode. -/
def decodeRecordSets (zone : Zone) : List RawRecordSet → Option (List ResourceRecordSet)
  | [] => some []
  | w :: ws =>
    match ResourceRecordSet.from_api_repr w zone, decodeRecordSets zone ws with
    | some rs, some tail => some (rs :: tail)
    | _, _ => none

/-- Modelled from the spec: the shared apply-decoded-fields step used by
from_api_repr, create and reload — overwrite name, started, status and the
decoded additions and deletions on an already-allocated entity; a missing
additions or deletions key yields an empty list. -/
def Changes.set_properties (c : Changes) (r : ChangesResource) : Option Changes :=
  match decodeRecordSets c.zone (r.additions.getD []),
        decodeRecordSets c.zone (r.deletions.getD []) with
  | some adds, some dels =>
      some { c with
        name := some r.id, status := some r.status,
        started := some (rfc3339_to_datetime r.startTime),
        additions := adds, deletions := dels }
  | _, _ => none

/-- Modelled from the spec: from_api_repr constructs a draft Changes bound
to the zone and applies the decode step to the given resource. -/
def Changes.from_api_repr (r : ChangesResource) (zone : Zone) : Option Changes :=
  (Changes.empty zone).set_properties r

/-- Modelled from the spec: bound-or-override client resolution — the
explicit argument when given, else the zone's bound default client. -/
def Changes.effective_client (c : Changes) (explicit : Option Client) : Client :=
  explicit.getD c.zone.client

/-- The collection path for change sets of a zone under a project. -/
def changesPath (project zoneName : String) : String :=
  "/projects/" ++ project ++ "/managedZones/" ++ zoneName ++ "/changes"

/-- Modelled from the spec: the path of one named change set. -/
def Changes.path (project zoneName changeName : String) : String :=
  changesPath project zoneName ++ "/" ++ changeName

/-- Modelled from the spec: the create request body — additions and
deletions serialized through the plain wire format (no cleaning on the way
out). -/
def Changes.build_resource (c : Changes) : ChangesBody :=
  { additions := c.additions.map ResourceRecordSet.to_wire,
    deletions := c.deletions.map ResourceRecordSet.to_wire }

/-- Modelled from the spec: create — raise the InvalidArgument-kind
ValueError with no network traffic when both lists are empty; otherwise
POST the serialized body to the changes collection path of the effective
client's project and, on success, overwrite the entity in place through the
decode step. Transport errors propagate and leave the entity unchanged. -/
def Changes.create (c : Changes) (explicit : Option Client) (resp : ApiResult) :
    OpOutcome Unit :=
  if c.additions.isEmpty && c.deletions.isEmpty then
    ⟨c, [], .error .valueError⟩
  else
    let client := c.effective_client explicit
    let req : Request :=
      ⟨"POST", changesPath client.project c.zone.name, none, some c.build_resource⟩
    match resp with
    | .ok res =>
        match c.set_properties res with
        | some c2 => ⟨c2, [(client.cid, req)], .ok ()⟩
        | none => ⟨c, [(client.cid, req)], .error .valueError⟩
    | .notFound => ⟨c, [(client.cid, req)], .error .notFound⟩
    | .apiError e => ⟨c, [(client.cid, req)], .error (.other e)⟩

/-- Modelled from the spec: exists — precondition that the name is set
(violations are a local usage error with no traffic); GET the change's
path with the minimal fields=id projection; True on success, False on
NotFound, other errors propagate; the entity is never mutated. -/
def Changes.exists (c : Changes) (explicit : Option Client) (resp : ApiResult) :
    OpOutcome Bool :=
  match c.name with
  | none => ⟨c, [], .error .valueError⟩
  | some n =>
    let client := c.effective_client explicit
    let req : Request :=
      ⟨"GET", Changes.path client.project c.zone.name n, some [("fields", "id")], none⟩
    match resp with
    | .ok _ => ⟨c, [(client.cid, req)], .ok true⟩
    | .notFound => ⟨c, [(client.cid, req)], .ok false⟩
    | .apiError e => ⟨c, [(client.cid, req)], .error (.other e)⟩

/-- Modelled from the spec: reload — precondition that the name is set;
GET the change's path with no query restriction; on success overwrite the
entity in place through the decode step; every error, NotFound included,
propagates and leaves the entity unchanged. -/
def Changes.reload (c : Changes) (explicit : Option Client) (resp : ApiResult) :
    OpOutcome Unit :=
  match c.name with
  | none => ⟨c, [], .error .valueError⟩
  | some n =>
    let client := c.effective_client explicit
    let req : Request :=
      ⟨"GET", Changes.path client.project c.zone.name n, none, none⟩
    match resp with
    | .ok res =>
        match c.set_properties res with
        | some c2 => ⟨c2, [(client.cid, req)], .ok ()⟩
        | none => ⟨c, [(client.cid, req)], .error .valueError⟩
    | .notFound => ⟨c, [(client.cid, req)], .error .notFound⟩
    | .apiError e => ⟨c, [(client.cid, req)], .error (.other e)⟩

/-- The sub-trace of requests received by the client tagged `id`. -/
def requestsTo (id : Nat) (trace : List (Nat × Request)) : List (Nat × Request) :=
  trace.filter (fun p => p.1 == id)

/-- View a JSON value as an object, failing on any other shape (the Python
code would raise an AttributeError when calling pop on a non-dict). -/
def Json.asObj? : Json → Option (List (String × Json))
  | .obj m => some m
  | _ => none

/-- View a JSON value as an array, failing on any other shape. -/
def Json.asArr? : Json → Option (List Json)
  | .arr l => some l
  | _ => none

/-- dict.pop(k, None): drop the entry with key `k` from a mapping. -/
def popKey (k : String) (m : List (String × Json)) : List (String × Json) :=
  m.filter (fun p => p.1 != k)

/-- In-place replacement of the value stored under an existing key `k`. -/
def setKey (k : String) (v : Json) (m : List (String × Json)) : List (String × Json) :=
  m.map (fun p => if p.1 = k then (p.1, v) else p)

/-- One whitelistedKeySpecs entry with key_spec.pop of the kind key applied;
fails when the entry is not an object. -/
def stripSpecKind (j : Json) : Option Json :=
  (j.asObj?).map (fun m => Json.obj (popKey "kind" m))

/-- stripSpecKind applied to every entry of the whitelistedKeySpecs list. -/
def mapStripKind : List Json → Option (List Json)
  | [] => some []
  | j :: js =>
    match stripSpecKind j, mapStripKind js with
    | some a, some rest => some (a :: rest)
    | _, _ => none

/-- The response transformation of Client.quotas from
google/cloud/dns/client.py: take the quota sub-mapping of the project
resource, pop its kind key, and when a whitelistedKeySpecs key is present
pop the kind key from each entry of that list, leaving everything else
unchanged. -/
def quotasClean (resp : List (String × Json)) : Option (List (String × Json)) :=
  match resp.lookup "quota" with
  | none => none
  | some qv =>
    match qv.asObj? with
    | none => none
    | some q0 =>
      let q := popKey "kind" q0
      match q.lookup "whitelistedKeySpecs" with
      | none => some q
      | some specs =>
        match specs.asArr? with
        | none => none
        | some l =>
          match mapStripKind l with
          | none => none
          | some l2 => some (setKey "whitelistedKeySpecs" (Json.arr l2) q)

/-- Client.quotas from google/cloud/dns/client.py: issue one GET for the
project resource and return the cleaned quota sub-mapping of the response,
which is supplied as an oracle argument. -/
def Client.quotas (client : Client) (resp : List (String × Json)) :
    Request × Option (List (String × Json)) :=
  (⟨"GET", "/projects/" ++ client.project, none, none⟩, quotasClean resp)

/-- The bound client of the unit tests (project name "project"). -/
def testClient : Client := ⟨0, "project"⟩

/-- An alternate explicit client, distinct from the bound one. -/
def altClient : Client := ⟨1, "project"⟩

/-- The zone fixture of the unit tests. -/
def testZone : Zone := ⟨"project", "example.com", testClient⟩

/-- The wire-shaped addition of the unit tests' resource fixture. -/
def wireAddition : RawRecordSet :=
  ⟨"test.example.com", "CNAME", "3600", some ["www.example.com"], none⟩

/-- The wire-shaped deletion of the unit tests' resource fixture. -/
def wireDeletion : RawRecordSet :=
  ⟨"test.example.com", "CNAME", "86400", some ["other.example.com"], none⟩

/-- The server-shaped Changes resource fixture of the unit tests. -/
def testResource : ChangesResource :=
  ⟨"changeset_id", "2021-08-20T19:18:00.000Z", "done",
   some [wireAddition], some [wireDeletion]⟩

/-- The decoded addition record set of the unit tests. -/
def rrsAddition : ResourceRecordSet :=
  ⟨"test.example.com", "CNAME", 3600, ["www.example.com"], [], testZone⟩

/-- The decoded deletion record set of the unit tests. -/
def rrsDeletion : ResourceRecordSet :=
  ⟨"test.example.com", "CNAME", 86400, ["other.example.com"], [], testZone⟩

/-- A freshly constructed draft Changes bound to the test zone. -/
def draftChanges : Changes := Changes.empty testZone

/-- A draft Changes holding one addition and one deletion. -/
def pendingChanges : Changes :=
  { draftChanges with additions := [rrsAddition], deletions := [rrsDeletion] }

/-- A server-known Changes whose name is set. -/
def namedChanges : Changes := { draftChanges with name := some "changeset_id" }

/-- A Changes with a name set and one pending addition and deletion, so
every network operation's precondition holds. -/
def readyChanges : Changes := { pendingChanges with name := some "changeset_id" }

/-- The Changes obtained by decoding the unit tests' resource fixture. -/
def decodedChanges : Changes :=
  { zone := testZone, name := some "changeset_id", status := some "done",
    started := some (rfc3339_to_datetime "2021-08-20T19:18:00.000Z"),
    additions := [rrsAddition], deletions := [rrsDeletion] }

/-- A project-resource quota sub-mapping fixture: a kind key, ordinary
quota keys, and a whitelistedKeySpecs list whose entry carries its own
kind key. -/
def quotaFixture : List (String × Json) :=
  [("kind", Json.str "dns#quota"), ("managedZones", Json.num 10000),
   ("whitelistedKeySpecs",
     Json.arr [Json.obj [("kind", Json.str "dns#dnsKeySpec"),
                         ("algorithm", Json.str "rsasha256")]])]

/-- A project resource response carrying the quota fixture. -/
def projectResponse : List (String × Json) :=
  [("kind", Json.str "dns#project"), ("id", Json.str "project"),
   ("quota", Json.obj quotaFixture)]

/-- The raw record-set mapping of the repository's unit test
test__routing_policy_cleaner_truthy: non-empty rrdatas together with a
non-empty routingPolicy. -/
def truthyCleanerInput : RawRecordSet :=
  { name := "test.example.com", type := "A", ttl := "3600",
    rrdatas := some ["10.1.2.3"],
    routingPolicy := some [("geo", Json.obj [])] }

/-- Claim C1 (counterexample): on the unit test input carrying a non-empty
routingPolicy together with non-empty rrdatas, the cleaner keeps BOTH keys,
so it is false that it removes rrdatas whenever routingPolicy is non-empty,
and false that the cleaned mapping carries exactly one of the two keys. -/
theorem routing_policy_cleaner_keeps_both_on_truthy :
    ¬((Changes.routing_policy_cleaner truthyCleanerInput).rrdatas = none ∨
      (Changes.routing_policy_cleaner truthyCleanerInput).routingPolicy = none) := by
  intro h
  cases h with
  | inl h => simp [Changes.routing_policy_cleaner, truthyCleanerInput] at h
  | inr h => simp [Changes.routing_policy_cleaner, truthyCleanerInput] at h

/-- Claim C1 (amended): the cleaner removes the rrdatas key exactly when the
input's rrdatas is absent or empty and removes the routingPolicy key exactly
when the input's routingPolicy is absent or empty, independently; a key that
is kept retains its value, and the name, type and ttl fields are unchanged.
Consequently the cleaned mapping may carry both keys (both non-empty) or
neither (both absent or empty). -/
theorem routing_policy_cleaner_drops_falsy_keys (r : RawRecordSet) :
    ((Changes.routing_policy_cleaner r).rrdatas = none ↔
      ((r.rrdatas.getD []).isEmpty = true)) ∧
    ((Changes.routing_policy_cleaner r).rrdatas ≠ none →
      (Changes.routing_policy_cleaner r).rrdatas = r.rrdatas) ∧
    ((Changes.routing_policy_cleaner r).routingPolicy = none ↔
      ((r.routingPolicy.getD []).isEmpty = true)) ∧
    ((Changes.routing_policy_cleaner r).routingPolicy ≠ none →
      (Changes.routing_policy_cleaner r).routingPolicy = r.routingPolicy) ∧
    (Changes.routing_policy_cleaner r).name = r.name ∧
    (Changes.routing_policy_cleaner r).type = r.type ∧
    (Changes.routing_policy_cleaner r).ttl = r.ttl := by
  obtain ⟨n, t, ttl, rd, rp⟩ := r
  unfold Changes.routing_policy_cleaner
  cases rd with
  | none =>
    cases rp with
    | none => simp
    | some prp =>
      by_cases h2 : prp.isEmpty <;> simp [h2]
  | some lrd =>
    by_cases h1 : lrd.isEmpty
    · cases rp with
      | none => simp [h1]
      | some prp =>
        by_cases h2 : prp.isEmpty <;> simp [h1, h2]
    · cases rp with
      | none => simp [h1]
      | some prp =>
        by_cases h2 : prp.isEmpty <;> simp [h1, h2]

/-- Claim C1 (witness for the amended theorem): concrete evaluation at the
unit test's truthy input, where both keys are non-empty and both are kept
with their values. -/
theorem routing_policy_cleaner_drops_falsy_keys_witness :
    (Changes.routing_policy_cleaner truthyCleanerInput).rrdatas =
      truthyCleanerInput.rrdatas ∧
    (Changes.routing_policy_cleaner truthyCleanerInput).routingPolicy =
      truthyCleanerInput.routingPolicy := by
  refine ⟨(routing_policy_cleaner_drops_falsy_keys truthyCleanerInput).2.1 ?_,
    (routing_policy_cleaner_drops_falsy_keys truthyCleanerInput).2.2.2.1 ?_⟩
  · simp [Changes.routing_policy_cleaner, truthyCleanerInput]
  · simp [Changes.routing_policy_cleaner, truthyCleanerInput]

/-- The cleaning rule never changes the name, type or ttl fields. -/
theorem cleaner_preserves_scalar_fields (r : RawRecordSet) :
    (Changes.routing_policy_cleaner r).name = r.name ∧
    (Changes.routing_policy_cleaner r).type = r.type ∧
    (Changes.routing_policy_cleaner r).ttl = r.ttl := by
  unfold Changes.routing_policy_cleaner
  by_cases h1 : (r.rrdatas.getD []).isEmpty <;>
    by_cases h2 : (r.routingPolicy.getD []).isEmpty <;> simp [h1, h2]

/-- The cleaning rule never changes the rrdatas value seen through a
default of the empty list: it only drops the key when it is already
empty. -/
theorem cleaner_preserves_rrdatas_getD (r : RawRecordSet) :
    (Changes.routing_policy_cleaner r).rrdatas.getD [] = r.rrdatas.getD [] := by
  unfold Changes.routing_policy_cleaner
  by_cases h1 : (r.rrdatas.getD []).isEmpty <;>
    by_cases h2 : (r.routingPolicy.getD []).isEmpty <;>
      simp [h1, h2] <;> simp [List.isEmpty_iff] at h1 <;> simp [h1]

/-- The cleaning rule never changes the routingPolicy value seen through a
default of the empty mapping. -/
theorem cleaner_preserves_routingPolicy_getD (r : RawRecordSet) :
    (Changes.routing_policy_cleaner r).routingPolicy.getD [] =
      r.routingPolicy.getD [] := by
  unfold Changes.routing_policy_cleaner
  by_cases h1 : (r.rrdatas.getD []).isEmpty <;>
    by_cases h2 : (r.routingPolicy.getD []).isEmpty <;>
      simp [h1, h2] <;> simp [List.isEmpty_iff] at h2 <;> simp [h2]

/-- Decoding one raw record set yields the raw mapping's name and type, the
int-parsed ttl, the rrdatas (defaulting to empty when absent) and the given
zone back-reference. -/
theorem from_api_repr_fields (w : RawRecordSet) (zone : Zone)
    (rs : ResourceRecordSet)
    (h : ResourceRecordSet.from_api_repr w zone = some rs) :
    rs.name = w.name ∧ rs.record_type = w.type ∧
    py_int w.ttl = some rs.ttl ∧ rs.rrdatas = w.rrdatas.getD [] ∧
    rs.zone = zone := by
  simp only [ResourceRecordSet.from_api_repr] at h
  obtain ⟨hn, ht, httl⟩ := cleaner_preserves_scalar_fields w
  cases hp : py_int (Changes.routing_policy_cleaner w).ttl with
  | none => rw [hp] at h; simp at h
  | some t =>
    rw [hp] at h
    simp at h
    subst h
    rw [httl] at hp
    exact ⟨hn, ht, hp, cleaner_preserves_rrdatas_getD w, rfl⟩

/-- Decoding a list of raw record sets succeeds with a list of the same
length whose entries decode from the corresponding raw entries. -/
theorem decodeRecordSets_spec (zone : Zone) (ws : List RawRecordSet)
    (rss : List ResourceRecordSet)
    (h : decodeRecordSets zone ws = some rss) :
    rss.length = ws.length ∧
    ∀ i (h1 : i < ws.length) (h2 : i < rss.length),
      ResourceRecordSet.from_api_repr (ws.get ⟨i, h1⟩) zone =
        some (rss.get ⟨i, h2⟩) := by
  induction ws generalizing rss with
  | nil =>
    unfold decodeRecordSets at h
    simp at h
    subst h
    exact ⟨rfl, fun i h1 h2 => absurd h1 (Nat.not_lt_zero i)⟩
  | cons w ws ih =>
    unfold decodeRecordSets at h
    cases hw : ResourceRecordSet.from_api_repr w zone with
    | none => rw [hw] at h; simp at h
    | some rs =>
      rw [hw] at h
      cases hws : decodeRecordSets zone ws with
      | none => rw [hws] at h; simp at h
      | some tail =>
        rw [hws] at h
        simp at h
        subst h
        obtain ⟨hlen, hget⟩ := ih tail hws
        refine ⟨by simp [hlen], ?_⟩
        intro i h1 h2
        cases i with
        | zero => simpa using hw
        | succ j =>
          simp only [List.get_cons_succ]
          exact hget j (Nat.lt_of_succ_lt_succ h1) (Nat.lt_of_succ_lt_succ h2)

/-- The apply-decoded-fields step overwrites name, status and started from
the resource, decodes the additions and deletions lists, and keeps the
zone back-reference. -/
theorem set_properties_fields (c : Changes) (r : ChangesResource)
    (c2 : Changes) (h : c.set_properties r = some c2) :
    c2.name = some r.id ∧ c2.status = some r.status ∧
    c2.started = some (rfc3339_to_datetime r.startTime) ∧
    decodeRecordSets c.zone (r.additions.getD []) = some c2.additions ∧
    decodeRecordSets c.zone (r.deletions.getD []) = some c2.deletions ∧
    c2.zone = c.zone := by
  unfold Changes.set_properties at h
  cases ha : decodeRecordSets c.zone (r.additions.getD []) with
  | none => rw [ha] at h; simp at h
  | some adds =>
    rw [ha] at h
    cases hd : decodeRecordSets c.zone (r.deletions.getD []) with
    | none => rw [hd] at h; simp at h
    | some dels =>
      rw [hd] at h
      simp at h
      subst h
      exact ⟨rfl, rfl, rfl, rfl, rfl, rfl⟩

/-- The apply-decoded-fields step always succeeds on a resource whose
additions and deletions keys are both absent, producing empty lists. -/
theorem set_properties_no_lists (c : Changes) (r : ChangesResource)
    (h1 : r.additions = none) (h2 : r.deletions = none) :
    c.set_properties r =
      some { c with
        name := some r.id, status := some r.status,
        started := some (rfc3339_to_datetime r.startTime),
        additions := [], deletions := [] } := by
  unfold Changes.set_properties
  simp [h1, h2, decodeRecordSets]

/-- Claim C4: create on a Changes whose additions and deletions are both
empty raises the InvalidArgument-kind ValueError, issues zero requests,
and leaves the entity unchanged, for every client resolution and every
would-be server response. -/
theorem changes_create_empty_guard (c : Changes) (explicit : Option Client)
    (resp : ApiResult) (h1 : c.additions = []) (h2 : c.deletions = []) :
    c.create explicit resp = ⟨c, [], .error .valueError⟩ := by
  simp [Changes.create, h1, h2]

/-- Claim C4 (witness): a freshly constructed draft Changes. -/
theorem changes_create_empty_guard_witness :
    draftChanges.create none ApiResult.notFound =
      ⟨draftChanges, [], .error .valueError⟩ :=
  changes_create_empty_guard draftChanges none ApiResult.notFound rfl rfl

/-- Claim C9: setting the name of a Changes to any non-string value raises
the InvalidArgument-kind ValueError and leaves the entity unchanged, while
setting it to a string succeeds and the attribute then equals that
string. -/
theorem changes_name_setter_type_check (c : Changes) (v : PyObject) :
    ((∀ s, v ≠ PyObject.str s) → c.set_name v = (c, some DnsError.valueError)) ∧
    (∀ s, v = PyObject.str s →
      c.set_name v = ({ c with name := some s }, none) ∧
      (c.set_name v).1.name = some s) := by
  cases v with
  | str s =>
    refine ⟨fun h => absurd rfl (h s), ?_⟩
    intro s2 hs
    cases hs
    exact ⟨rfl, rfl⟩
  | int n => exact ⟨fun _ => rfl, fun s2 hs => by cases hs⟩
  | rrset rs => exact ⟨fun _ => rfl, fun s2 hs => by cases hs⟩
  | otherObject n => exact ⟨fun _ => rfl, fun s2 hs => by cases hs⟩

/-- Claim C9 (witness): the unit tests' inputs, an int 12345 and the
string NAME. -/
theorem changes_name_setter_type_check_witness :
    draftChanges.set_name (PyObject.int 12345) =
      (draftChanges, some DnsError.valueError) ∧
    (draftChanges.set_name (PyObject.str "NAME")).1.name = some "NAME" :=
  ⟨(changes_name_setter_type_check draftChanges (PyObject.int 12345)).1
      (fun s h => by cases h),
   ((changes_name_setter_type_check draftChanges (PyObject.str "NAME")).2
      "NAME" rfl).2⟩

/-- Claim C7: add_record_set and delete_record_set raise the
InvalidArgument-kind ValueError on any value that is not a
ResourceRecordSet, leaving both lists unchanged, and append a
ResourceRecordSet value to the corresponding list. -/
theorem changes_record_set_mutators (c : Changes) (v : PyObject) :
    ((∀ rs, v ≠ PyObject.rrset rs) →
      c.add_record_set v = (c, some DnsError.valueError) ∧
      c.delete_record_set v = (c, some DnsError.valueError)) ∧
    (∀ rs, v = PyObject.rrset rs →
      c.add_record_set v = ({ c with additions := c.additions ++ [rs] }, none) ∧
      c.delete_record_set v = ({ c with deletions := c.deletions ++ [rs] }, none)) := by
  cases v with
  | rrset rs =>
    refine ⟨fun h => absurd rfl (h rs), ?_⟩
    intro rs2 hs
    cases hs
    exact ⟨rfl, rfl⟩
  | str s => exact ⟨fun _ => ⟨rfl, rfl⟩, fun rs2 hs => by cases hs⟩
  | int n => exact ⟨fun _ => ⟨rfl, rfl⟩, fun rs2 hs => by cases hs⟩
  | otherObject n => exact ⟨fun _ => ⟨rfl, rfl⟩, fun rs2 hs => by cases hs⟩

/-- Claim C7 (witness): an arbitrary non-record-set object is rejected with
lists unchanged, and a record set is appended. -/
theorem changes_record_set_mutators_witness :
    draftChanges.add_record_set (PyObject.otherObject 0) =
      (draftChanges, some DnsError.valueError) ∧
    draftChanges.delete_record_set (PyObject.otherObject 0) =
      (draftChanges, some DnsError.valueError) ∧
    (draftChanges.add_record_set (PyObject.rrset rrsAddition)).1.additions =
      [rrsAddition] := by
  obtain ⟨ha, hd⟩ := (changes_record_set_mutators draftChanges
    (PyObject.otherObject 0)).1 (fun rs h => by cases h)
  obtain ⟨hadd, _⟩ := (changes_record_set_mutators draftChanges
    (PyObject.rrset rrsAddition)).2 rrsAddition rfl
  refine ⟨ha, hd, ?_⟩
  rw [hadd]
  rfl

/-- When the empty-change guard passes, create issues exactly one POST to
the changes collection path of the effective client's project, carrying
the serialized body, whatever the server replies. -/
theorem create_trace_eq (c : Changes) (explicit : Option Client)
    (resp : ApiResult)
    (hg : (c.additions.isEmpty && c.deletions.isEmpty) = false) :
    (c.create explicit resp).trace =
      [((c.effective_client explicit).cid,
        ⟨"POST", changesPath (c.effective_client explicit).project c.zone.name,
         none, some c.build_resource⟩)] := by
  cases resp with
  | ok res =>
    cases hsp : c.set_properties res with
    | none => simp [Changes.create, hg, hsp]
    | some c2 => simp [Changes.create, hg, hsp]
  | notFound => simp [Changes.create, hg]
  | apiError e => simp [Changes.create, hg]

/-- When the name is set, exists issues exactly one GET to the change's
path with the fields=id projection, whatever the server replies. -/
theorem exists_trace_eq (c : Changes) (n : String) (explicit : Option Client)
    (resp : ApiResult) (h : c.name = some n) :
    (c.exists explicit resp).trace =
      [((c.effective_client explicit).cid,
        ⟨"GET", Changes.path (c.effective_client explicit).project c.zone.name n,
         some [("fields", "id")], none⟩)] := by
  cases resp <;> simp [Changes.exists, h]

/-- When the name is set, reload issues exactly one GET to the change's
path with no query restriction, whatever the server replies. -/
theorem reload_trace_eq (c : Changes) (n : String) (explicit : Option Client)
    (resp : ApiResult) (h : c.name = some n) :
    (c.reload explicit resp).trace =
      [((c.effective_client explicit).cid,
        ⟨"GET", Changes.path (c.effective_client explicit).project c.zone.name n,
         none, none⟩)] := by
  cases resp with
  | ok res =>
    cases hsp : c.set_properties res with
    | none => simp [Changes.reload, h, hsp]
    | some c2 => simp [Changes.reload, h, hsp]
  | notFound => simp [Changes.reload, h]
  | apiError e => simp [Changes.reload, h]

/-- Claim C5: for a Changes with name set, exists issues exactly one GET to
the change's path with query parameter fields=id, returns True on success
and False on NotFound, propagates any other error, and never mutates the
entity. -/
theorem changes_exists_probe (c : Changes) (n : String)
    (explicit : Option Client) (resp : ApiResult) (h : c.name = some n) :
    (c.exists explicit resp).state = c ∧
    (c.exists explicit resp).trace =
      [((c.effective_client explicit).cid,
        ⟨"GET", Changes.path (c.effective_client explicit).project c.zone.name n,
         some [("fields", "id")], none⟩)] ∧
    (∀ res, resp = ApiResult.ok res →
      (c.exists explicit resp).result = .ok true) ∧
    (resp = ApiResult.notFound → (c.exists explicit resp).result = .ok false) ∧
    (∀ e, resp = ApiResult.apiError e →
      (c.exists explicit resp).result = .error (DnsError.other e)) := by
  cases resp <;> simp [Changes.exists, h]

/-- Claim C5 (witness): an existence probe answered with NotFound reports
False after one GET with the fields=id projection and leaves the entity
unchanged. -/
theorem changes_exists_probe_witness :
    (namedChanges.exists none ApiResult.notFound).state = namedChanges ∧
    (namedChanges.exists none ApiResult.notFound).result = .ok false ∧
    (namedChanges.exists none ApiResult.notFound).trace =
      [(0, ⟨"GET",
        "/projects/project/managedZones/example.com/changes/changeset_id",
        some [("fields", "id")], none⟩)] := by
  have h := changes_exists_probe namedChanges "changeset_id" none
    ApiResult.notFound rfl
  refine ⟨h.1, h.2.2.2.1 rfl, ?_⟩
  rw [h.2.1]
  rfl

/-- Claim C8: for a Changes with name set, reload issues exactly one GET to
the change's path with no query restriction; on success it overwrites the
entity in place through the decode step, and every error, NotFound
included, propagates and leaves the entity unchanged. -/
theorem changes_reload_refetches (c : Changes) (n : String)
    (explicit : Option Client) (resp : ApiResult) (h : c.name = some n) :
    (c.reload explicit resp).trace =
      [((c.effective_client explicit).cid,
        ⟨"GET", Changes.path (c.effective_client explicit).project c.zone.name n,
         none, none⟩)] ∧
    (∀ res c2, resp = ApiResult.ok res → c.set_properties res = some c2 →
      (c.reload explicit resp).state = c2 ∧
      (c.reload explicit resp).result = .ok () ∧
      c2.name = some res.id ∧ c2.status = some res.status ∧
      c2.started = some (rfc3339_to_datetime res.startTime) ∧
      decodeRecordSets c.zone (res.additions.getD []) = some c2.additions ∧
      decodeRecordSets c.zone (res.deletions.getD []) = some c2.deletions) ∧
    (resp = ApiResult.notFound →
      (c.reload explicit resp).state = c ∧
      (c.reload explicit resp).result = .error DnsError.notFound) ∧
    (∀ e, resp = ApiResult.apiError e →
      (c.reload explicit resp).state = c ∧
      (c.reload explicit resp).result = .error (DnsError.other e)) := by
  refine ⟨reload_trace_eq c n explicit resp h, ?_, ?_, ?_⟩
  · intro res c2 hresp hsp
    subst hresp
    obtain ⟨f1, f2, f3, f4, f5, _⟩ := set_properties_fields c res c2 hsp
    refine ⟨?_, ?_, f1, f2, f3, f4, f5⟩ <;> simp [Changes.reload, h, hsp]
  · intro hresp
    subst hresp
    exact ⟨by simp [Changes.reload, h], by simp [Changes.reload, h]⟩
  · intro e hresp
    subst hresp
    exact ⟨by simp [Changes.reload, h], by simp [Changes.reload, h]⟩

/-- Claim C8 (witness): reloading the named fixture with the unit tests'
resource overwrites the entity with the decoded fields after one
unrestricted GET. -/
theorem changes_reload_refetches_witness :
    (namedChanges.reload none (ApiResult.ok testResource)).trace =
      [(0, ⟨"GET",
        "/projects/project/managedZones/example.com/changes/changeset_id",
        none, none⟩)] ∧
    (namedChanges.reload none (ApiResult.ok testResource)).state =
      decodedChanges ∧
    (namedChanges.reload none (ApiResult.ok testResource)).result = .ok () := by
  have h := changes_reload_refetches namedChanges "changeset_id" none
    (ApiResult.ok testResource) rfl
  obtain ⟨hst, hres, _⟩ := h.2.1 testResource decodedChanges rfl (by rfl)
  refine ⟨?_, hst, hres⟩
  rw [h.1]
  rfl

/-- Claim C2: for a Changes holding at least one addition and one deletion,
create issues exactly one POST to the changes collection path whose body
serializes the additions and deletions with each ttl encoded as the
decimal string of the integer ttl, and on success overwrites the entity in
place from the server response through the decode step. -/
theorem changes_create_posts_and_overwrites (c : Changes)
    (explicit : Option Client) (resp : ApiResult)
    (h1 : c.additions ≠ []) (_h2 : c.deletions ≠ []) :
    (c.create explicit resp).trace =
      [((c.effective_client explicit).cid,
        ⟨"POST", changesPath (c.effective_client explicit).project c.zone.name,
         none, some c.build_resource⟩)] ∧
    c.build_resource.additions = c.additions.map ResourceRecordSet.to_wire ∧
    c.build_resource.deletions = c.deletions.map ResourceRecordSet.to_wire ∧
    (∀ rs, (ResourceRecordSet.to_wire rs).ttl = toString rs.ttl) ∧
    (∀ res c2, resp = ApiResult.ok res → c.set_properties res = some c2 →
      (c.create explicit resp).state = c2 ∧
      (c.create explicit resp).result = .ok () ∧
      c2.name = some res.id ∧ c2.status = some res.status ∧
      c2.started = some (rfc3339_to_datetime res.startTime) ∧
      decodeRecordSets c.zone (res.additions.getD []) = some c2.additions ∧
      decodeRecordSets c.zone (res.deletions.getD []) = some c2.deletions) := by
  have hg : (c.additions.isEmpty && c.deletions.isEmpty) = false := by
    cases ca : c.additions with
    | nil => exact absurd ca h1
    | cons x xs => simp
  refine ⟨create_trace_eq c explicit resp hg, rfl, rfl, fun rs => rfl, ?_⟩
  intro res c2 hresp hsp
  subst hresp
  obtain ⟨f1, f2, f3, f4, f5, _⟩ := set_properties_fields c res c2 hsp
  refine ⟨?_, ?_, f1, f2, f3, f4, f5⟩ <;> simp [Changes.create, hg, hsp]

/-- Claim C2 (witness): the unit tests' create call with one addition and
one deletion, answered with the resource fixture. -/
theorem changes_create_posts_and_overwrites_witness :
    (pendingChanges.create none (ApiResult.ok testResource)).trace =
      [(0, ⟨"POST", "/projects/project/managedZones/example.com/changes",
        none,
        some ⟨[⟨"test.example.com", "CNAME", "3600",
                some ["www.example.com"], none⟩],
              [⟨"test.example.com", "CNAME", "86400",
                some ["other.example.com"], none⟩]⟩⟩)] ∧
    (pendingChanges.create none (ApiResult.ok testResource)).state =
      decodedChanges ∧
    (pendingChanges.create none (ApiResult.ok testResource)).result = .ok () := by
  have h := changes_create_posts_and_overwrites pendingChanges none
    (ApiResult.ok testResource) (by simp [pendingChanges])
    (by simp [pendingChanges])
  obtain ⟨hst, hres, _⟩ := h.2.2.2.2 testResource decodedChanges rfl (by rfl)
  refine ⟨?_, hst, hres⟩
  rw [h.1]
  rfl

/-- Claim C6: when an explicit client is passed to create, exists or
reload (with the operation's precondition met), every request of the
operation goes to the explicit client — exactly one request — and the
zone's bound default client receives zero requests whenever it is a
distinct client. -/
theorem changes_explicit_client_routing (c : Changes) (client : Client)
    (resp : ApiResult) (h1 : c.additions ≠ [] ∨ c.deletions ≠ [])
    (h2 : c.name.isSome = true) :
    ((c.create (some client) resp).trace.map Prod.fst = [client.cid] ∧
      (client.cid ≠ c.zone.client.cid →
        requestsTo c.zone.client.cid (c.create (some client) resp).trace = [])) ∧
    ((c.exists (some client) resp).trace.map Prod.fst = [client.cid] ∧
      (client.cid ≠ c.zone.client.cid →
        requestsTo c.zone.client.cid (c.exists (some client) resp).trace = [])) ∧
    ((c.reload (some client) resp).trace.map Prod.fst = [client.cid] ∧
      (client.cid ≠ c.zone.client.cid →
        requestsTo c.zone.client.cid (c.reload (some client) resp).trace = [])) := by
  have hg : (c.additions.isEmpty && c.deletions.isEmpty) = false := by
    cases h1 with
    | inl h =>
      cases ca : c.additions with
      | nil => exact absurd ca h
      | cons x xs => simp
    | inr h =>
      cases cd : c.deletions with
      | nil => exact absurd cd h
      | cons x xs => simp [cd]
  obtain ⟨n, hn⟩ := Option.isSome_iff_exists.mp h2
  have heff : c.effective_client (some client) = client := rfl
  have tr1 := create_trace_eq c (some client) resp hg
  have tr2 := exists_trace_eq c n (some client) resp hn
  have tr3 := reload_trace_eq c n (some client) resp hn
  rw [heff] at tr1 tr2 tr3
  refine ⟨⟨?_, ?_⟩, ⟨?_, ?_⟩, ⟨?_, ?_⟩⟩
  · rw [tr1]; rfl
  · intro hne
    rw [tr1]
    simp [requestsTo, List.filter, beq_eq_false_iff_ne.mpr hne]
  · rw [tr2]; rfl
  · intro hne
    rw [tr2]
    simp [requestsTo, List.filter, beq_eq_false_iff_ne.mpr hne]
  · rw [tr3]; rfl
  · intro hne
    rw [tr3]
    simp [requestsTo, List.filter, beq_eq_false_iff_ne.mpr hne]

/-- Claim C6 (witness): the alternate-client tests — client id 1 passed
explicitly while the zone's bound client has id 0. -/
theorem changes_explicit_client_routing_witness :
    (readyChanges.create (some altClient) ApiResult.notFound).trace.map
      Prod.fst = [1] ∧
    requestsTo 0
      (readyChanges.exists (some altClient) ApiResult.notFound).trace = [] ∧
    (readyChanges.reload (some altClient) ApiResult.notFound).trace.map
      Prod.fst = [1] := by
  have h := changes_explicit_client_routing readyChanges altClient
    ApiResult.notFound (Or.inl (by simp [readyChanges, pendingChanges]))
    (by rfl)
  exact ⟨h.1.1, h.2.1.2 (by simp [altClient, readyChanges, pendingChanges,
    draftChanges, Changes.empty, testZone, testClient]), h.2.2.1⟩

/-- Claim C3: decoding a server-shaped resource through from_api_repr
yields a Changes whose name is the resource id, whose started is the
RFC 3339 parse of startTime, whose status is the resource status, and
whose addition and deletion entries carry, in order, the source name,
type, int-parsed ttl, rrdatas and the zone back-reference; missing
additions or deletions keys yield empty lists and no error. -/
theorem changes_from_api_repr_decodes (r : ChangesResource) (zone : Zone) :
    (∀ c, Changes.from_api_repr r zone = some c →
      c.name = some r.id ∧
      c.started = some (rfc3339_to_datetime r.startTime) ∧
      c.status = some r.status ∧
      c.additions.length = (r.additions.getD []).length ∧
      c.deletions.length = (r.deletions.getD []).length ∧
      (∀ i (ha : i < (r.additions.getD []).length) (hc : i < c.additions.length),
        (c.additions.get ⟨i, hc⟩).name =
          ((r.additions.getD []).get ⟨i, ha⟩).name ∧
        (c.additions.get ⟨i, hc⟩).record_type =
          ((r.additions.getD []).get ⟨i, ha⟩).type ∧
        py_int ((r.additions.getD []).get ⟨i, ha⟩).ttl =
          some (c.additions.get ⟨i, hc⟩).ttl ∧
        (c.additions.get ⟨i, hc⟩).rrdatas =
          ((r.additions.getD []).get ⟨i, ha⟩).rrdatas.getD [] ∧
        (c.additions.get ⟨i, hc⟩).zone = zone) ∧
      (∀ i (hd : i < (r.deletions.getD []).length) (hc : i < c.deletions.length),
        (c.deletions.get ⟨i, hc⟩).name =
          ((r.deletions.getD []).get ⟨i, hd⟩).name ∧
        (c.deletions.get ⟨i, hc⟩).record_type =
          ((r.deletions.getD []).get ⟨i, hd⟩).type ∧
        py_int ((r.deletions.getD []).get ⟨i, hd⟩).ttl =
          some (c.deletions.get ⟨i, hc⟩).ttl ∧
        (c.deletions.get ⟨i, hc⟩).rrdatas =
          ((r.deletions.getD []).get ⟨i, hd⟩).rrdatas.getD [] ∧
        (c.deletions.get ⟨i, hc⟩).zone = zone)) ∧
    (r.additions = none → r.deletions = none →
      Changes.from_api_repr r zone =
        some { zone := zone, name := some r.id, status := some r.status,
               started := some (rfc3339_to_datetime r.startTime),
               additions := [], deletions := [] }) := by
  constructor
  · intro c h
    unfold Changes.from_api_repr at h
    obtain ⟨f1, f2, f3, f4, f5, _⟩ := set_properties_fields _ r c h
    have hz : (Changes.empty zone).zone = zone := rfl
    rw [hz] at f4 f5
    obtain ⟨la, ga⟩ := decodeRecordSets_spec zone _ _ f4
    obtain ⟨ld, gd⟩ := decodeRecordSets_spec zone _ _ f5
    refine ⟨f1, f3, f2, la, ld, ?_, ?_⟩
    · intro i ha hc
      obtain ⟨g1, g2, g3, g4, g5⟩ :=
        from_api_repr_fields ((r.additions.getD []).get ⟨i, ha⟩) zone
          (c.additions.get ⟨i, hc⟩) (ga i ha hc)
      exact ⟨g1, g2, g3, g4, g5⟩
    · intro i hd hc
      obtain ⟨g1, g2, g3, g4, g5⟩ :=
        from_api_repr_fields ((r.deletions.getD []).get ⟨i, hd⟩) zone
          (c.deletions.get ⟨i, hc⟩) (gd i hd hc)
      exact ⟨g1, g2, g3, g4, g5⟩
  · intro ha hd
    unfold Changes.from_api_repr
    rw [set_properties_no_lists _ r ha hd]
    rfl

/-- Claim C3 (witness): the unit tests' resource fixture decodes to the
expected Changes, and its first addition carries the source fields with
the ttl string parsed to the integer 3600. -/
theorem changes_from_api_repr_decodes_witness :
    Changes.from_api_repr testResource testZone = some decodedChanges ∧
    decodedChanges.name = some "changeset_id" ∧
    decodedChanges.status = some "done" ∧
    decodedChanges.additions.length = 1 ∧
    py_int "3600" = some 3600 := by
  have hdec : Changes.from_api_repr testResource testZone =
      some decodedChanges := by rfl
  have h := (changes_from_api_repr_decodes testResource testZone).1
    decodedChanges hdec
  refine ⟨hdec, h.1, h.2.2.1, by rw [h.2.2.2.1]; rfl, ?_⟩
  have h6 := (h.2.2.2.2.2.1 0 (by rw [testResource]; simp [wireAddition])
    (by rw [h.2.2.2.1]; rw [testResource]; simp [wireAddition])).2.2.1
  simpa using h6

/-- Popping a key removes every binding for it. -/
theorem lookup_popKey_self (k : String) (m : List (String × Json)) :
    (popKey k m).lookup k = none := by
  induction m with
  | nil => rfl
  | cons p ps ih =>
    obtain ⟨a, b⟩ := p
    unfold popKey at ih ⊢
    by_cases hp : a = k
    · have hb : (a != k) = false := by simp [hp]
      simpa [List.filter_cons, hb] using ih
    · have hb : (a != k) = true := by simp [hp]
      have hk : (k == a) = false :=
        beq_eq_false_iff_ne.mpr (fun e => hp e.symm)
      simpa [List.filter_cons, hb, List.lookup_cons, hk] using ih

/-- Popping a key leaves the lookup of every other key unchanged. -/
theorem lookup_popKey_ne (k kk : String) (m : List (String × Json))
    (h : k ≠ kk) : (popKey kk m).lookup k = m.lookup k := by
  induction m with
  | nil => rfl
  | cons p ps ih =>
    obtain ⟨a, b⟩ := p
    unfold popKey at ih ⊢
    by_cases hp : a = kk
    · have hb : (a != kk) = false := by simp [hp]
      have hk : (k == a) = false :=
        beq_eq_false_iff_ne.mpr (fun e => h (e.trans hp))
      simpa [List.filter_cons, hb, List.lookup_cons, hk] using ih
    · have hb : (a != kk) = true := by simp [hp]
      by_cases hkp : k = a
      · have hk : (k == a) = true := beq_iff_eq.mpr hkp
        simp [List.filter_cons, hb, List.lookup_cons, hk]
      · have hk : (k == a) = false := beq_eq_false_iff_ne.mpr hkp
        simpa [List.filter_cons, hb, List.lookup_cons, hk] using ih

/-- Replacing the value under one key leaves every other key's lookup
unchanged. -/
theorem lookup_setKey_ne (k kk : String) (v : Json)
    (m : List (String × Json)) (h : k ≠ kk) :
    (setKey kk v m).lookup k = m.lookup k := by
  induction m with
  | nil => rfl
  | cons p ps ih =>
    obtain ⟨a, b⟩ := p
    unfold setKey at ih ⊢
    by_cases hp : a = kk
    · have hk : (k == kk) = false := beq_eq_false_iff_ne.mpr h
      have hk2 : (k == a) = false :=
        beq_eq_false_iff_ne.mpr (fun e => h (e.trans hp))
      simpa [List.map_cons, hp, List.lookup_cons, hk, hk2] using ih
    · by_cases hkp : k = a
      · have hk : (k == a) = true := beq_iff_eq.mpr hkp
        simp [List.map_cons, hp, List.lookup_cons, hk]
      · have hk : (k == a) = false := beq_eq_false_iff_ne.mpr hkp
        simpa [List.map_cons, hp, List.lookup_cons, hk] using ih

/-- Replacing the value under a present key makes its lookup return the
new value. -/
theorem lookup_setKey_found (k : String) (v : Json)
    (m : List (String × Json)) (h : (m.lookup k).isSome = true) :
    (setKey k v m).lookup k = some v := by
  induction m with
  | nil => simp [List.lookup] at h
  | cons p ps ih =>
    obtain ⟨a, b⟩ := p
    unfold setKey at ih ⊢
    by_cases hp : a = k
    · have hk : (k == a) = true := beq_iff_eq.mpr hp.symm
      simp [List.map_cons, hp, List.lookup_cons, hk]
    · have hk : (k == a) = false :=
        beq_eq_false_iff_ne.mpr (fun e => hp e.symm)
      have h2 : (ps.lookup k).isSome = true := by
        simpa [List.lookup_cons, hk] using h
      simpa [List.map_cons, hp, List.lookup_cons, hk] using ih h2

/-- Stripping the kind key from every whitelistedKeySpecs entry keeps the
length and maps each object entry to the same object minus its kind
binding. -/
theorem mapStripKind_spec (l l2 : List Json) (h : mapStripKind l = some l2) :
    l2.length = l.length ∧
    ∀ i (h1 : i < l.length) (h2 : i < l2.length) m,
      l.get ⟨i, h1⟩ = Json.obj m →
      l2.get ⟨i, h2⟩ = Json.obj (popKey "kind" m) := by
  induction l generalizing l2 with
  | nil =>
    unfold mapStripKind at h
    simp at h
    subst h
    exact ⟨rfl, fun i h1 h2 m => absurd h1 (Nat.not_lt_zero i)⟩
  | cons j js ih =>
    unfold mapStripKind at h
    cases hj : stripSpecKind j with
    | none => rw [hj] at h; simp at h
    | some a =>
      rw [hj] at h
      cases hjs : mapStripKind js with
      | none => rw [hjs] at h; simp at h
      | some rest =>
        rw [hjs] at h
        simp at h
        subst h
        obtain ⟨hlen, hget⟩ := ih rest hjs
        refine ⟨by simp [hlen], ?_⟩
        intro i h1 h2 m hm
        cases i with
        | zero =>
          simp at hm
          subst hm
          unfold stripSpecKind Json.asObj? at hj
          simp at hj
          simpa using hj.symm
        | succ i2 =>
          simp only [List.get_cons_succ]
          exact hget i2 (Nat.lt_of_succ_lt_succ h1)
            (Nat.lt_of_succ_lt_succ h2) m (by simpa using hm)

/-- Stripping succeeds whenever every whitelistedKeySpecs entry is an
object. -/
theorem mapStripKind_total (l : List Json)
    (h : ∀ j, j ∈ l → ∃ m, j = Json.obj m) :
    ∃ l2, mapStripKind l = some l2 := by
  induction l with
  | nil => exact ⟨[], rfl⟩
  | cons j js ih =>
    obtain ⟨m, hm⟩ := h j (List.mem_cons_self j js)
    obtain ⟨rest, hrest⟩ := ih (fun x hx => h x (List.mem_cons_of_mem j hx))
    subst hm
    exact ⟨Json.obj (popKey "kind" m) :: rest,
      by unfold mapStripKind; simp [stripSpecKind, Json.asObj?, hrest]⟩

/-- Claim C10: Client.quotas issues one GET for the project resource and
returns the quota sub-mapping of the response with the kind key removed;
when a whitelistedKeySpecs list of objects is present, the kind key is
removed from each of its entries as well; every other key is returned
unchanged. -/
theorem client_quotas_strips_kind (client : Client)
    (resp : List (String × Json)) (q : List (String × Json))
    (h : resp.lookup "quota" = some (Json.obj q)) :
    (Client.quotas client resp).1 =
      ⟨"GET", "/projects/" ++ client.project, none, none⟩ ∧
    (q.lookup "whitelistedKeySpecs" = none →
      ∃ out, (Client.quotas client resp).2 = some out ∧
        out.lookup "kind" = none ∧
        ∀ k, k ≠ "kind" → out.lookup k = q.lookup k) ∧
    (∀ l, q.lookup "whitelistedKeySpecs" = some (Json.arr l) →
      (∀ j, j ∈ l → ∃ m, j = Json.obj m) →
      ∃ out, (Client.quotas client resp).2 = some out ∧
        out.lookup "kind" = none ∧
        (∀ k, k ≠ "kind" → k ≠ "whitelistedKeySpecs" →
          out.lookup k = q.lookup k) ∧
        ∃ l2, out.lookup "whitelistedKeySpecs" = some (Json.arr l2) ∧
          l2.length = l.length ∧
          ∀ i (h1 : i < l.length) (h2 : i < l2.length) m,
            l.get ⟨i, h1⟩ = Json.obj m →
            l2.get ⟨i, h2⟩ = Json.obj (popKey "kind" m)) := by
  have hwkind : ("whitelistedKeySpecs" : String) ≠ "kind" := by decide
  refine ⟨rfl, ?_, ?_⟩
  · intro hw
    have hw2 : (popKey "kind" q).lookup "whitelistedKeySpecs" = none := by
      rw [lookup_popKey_ne _ _ _ hwkind]; exact hw
    refine ⟨popKey "kind" q, ?_, lookup_popKey_self "kind" q, ?_⟩
    · simp only [Client.quotas, quotasClean, h, Json.asObj?, hw2]
    · intro k hk
      exact lookup_popKey_ne k "kind" q hk
  · intro l hw hobjs
    have hw2 : (popKey "kind" q).lookup "whitelistedKeySpecs" =
        some (Json.arr l) := by
      rw [lookup_popKey_ne _ _ _ hwkind]; exact hw
    obtain ⟨l2, hl2⟩ := mapStripKind_total l hobjs
    obtain ⟨hlen, hget⟩ := mapStripKind_spec l l2 hl2
    refine ⟨setKey "whitelistedKeySpecs" (Json.arr l2) (popKey "kind" q),
      ?_, ?_, ?_, l2, ?_, hlen, hget⟩
    · simp only [Client.quotas, quotasClean, h, Json.asObj?, hw2,
        Json.asArr?, hl2]
    · rw [lookup_setKey_ne _ _ _ _ (fun e => hwkind e.symm)]
      exact lookup_popKey_self "kind" q
    · intro k hk hkw
      rw [lookup_setKey_ne _ _ _ _ hkw]
      exact lookup_popKey_ne k "kind" q hk
    · exact lookup_setKey_found _ _ _ (by rw [hw2]; rfl)

/-- Claim C10 (witness): a project response whose quota carries a kind
key, an ordinary key and a whitelistedKeySpecs entry with its own kind
key. -/
theorem client_quotas_strips_kind_witness :
    ∃ out, (Client.quotas testClient projectResponse).2 = some out ∧
      out.lookup "kind" = none ∧
      out.lookup "managedZones" = some (Json.num 10000) ∧
      ∃ l2, out.lookup "whitelistedKeySpecs" = some (Json.arr l2) ∧
        l2.length = 1 := by
  have h := client_quotas_strips_kind testClient projectResponse quotaFixture
    (by rfl)
  obtain ⟨out, hout, hkind, hother, l2, hl2, hlen, _⟩ :=
    h.2.2 [Json.obj [("kind", Json.str "dns#dnsKeySpec"),
                     ("algorithm", Json.str "rsasha256")]]
      (by rfl)
      (by intro j hj
          simp at hj
          exact ⟨_, hj⟩)
  refine ⟨out, hout, hkind, ?_, l2, hl2, by simp [hlen]⟩
  rw [hother "managedZones" (by decide) (by decide)]
  rfl
